import Mathlib

/-!
Verification development for the pretalx-downstream plugin
(src/pretalx_downstream/tasks.py and src/pretalx_downstream/signals.py).

The pipeline is shallowly embedded: Django ORM tables become lists inside an
explicit `Store`, queries become list filters, "save" becomes replacement in
the list, and `transaction.atomic` becomes explicit state passing where a
raised exception discards the uncommitted store.  Python strings are Lean
`String`s, with slicing expressed through `List Char`.  External collaborators
(the pretalx `Schedule.freeze`, the `UpstreamResult` model from the plugin's
`models.py`, the SHA-256 digest) are modelled from the specification where the
implementation is not part of the analysed sources; each such definition
carries a doc comment starting with "Modelled from the spec:".
-/

/-! ## Python value semantics -/

/-- A Python scalar as it can come out of the hierarkey settings storage:
absent (`None`), an integer, or a string. -/
inductive PyScalar where
  | none : PyScalar
  | int : Int → PyScalar
  | str : String → PyScalar
  deriving DecidableEq, Repr

/-- Python exceptions relevant to `int()` conversion. -/
inductive PyError where
  | valueError : PyError
  | typeError : PyError
  deriving DecidableEq, Repr

/-- Python truthiness of a settings scalar: `None`, `0` and `""` are falsy. -/
def PyScalar.truthy : PyScalar → Bool
  | .none => false
  | .int n => n != 0
  | .str s => s != ""

/-- Python `x or d` for a settings scalar with an integer default: the scalar
itself when truthy, otherwise the default. -/
def pyOrScalar (x : PyScalar) (d : Int) : PyScalar :=
  if x.truthy then x else .int d

/-- Decimal digit accumulator for `int(str)`: consumes digits, `none` on any
non-digit or on an empty digit sequence. -/
def parseDigits : List Char → Option Nat → Option Nat
  | [], acc => acc
  | c :: cs, acc =>
    if c.isDigit then parseDigits cs (some ((acc.getD 0) * 10 + (c.toNat - 48)))
    else none

/-- Python `int()` applied to a string: an optional sign followed by decimal
digits; anything else raises `ValueError`.  (Python additionally tolerates
surrounding whitespace, `+` and digit-group underscores; none of the claims
involve those forms.) -/
def pyIntOfString (s : String) : Option Int :=
  match s.toList with
  | '-' :: cs => (parseDigits cs none).map (fun n => -(n : Int))
  | cs => (parseDigits cs none).map (fun n => (n : Int))

/-- Python `int(x)`: integers pass through, strings are parsed (raising
`ValueError` when not a valid integer literal), `None` raises `TypeError`. -/
def pyInt : PyScalar → Except PyError Int
  | .int n => .ok n
  | .str s =>
    match pyIntOfString s with
    | some n => .ok n
    | Option.none => .error .valueError
  | .none => .error .typeError

/-- Python truthiness of an optional string (`None` and `""` are falsy). -/
def pyStrTruthy : Option String → Bool
  | some s => s != ""
  | none => false

/-- Python `x or d` for an optional string: `None` and `""` give the
default. -/
def pyOr (x : Option String) (d : String) : String :=
  match x with
  | some s => if s = "" then d else s
  | none => d

/-- Python slicing `s[:n]`: the first `n` characters of the string. -/
def strTake (s : String) (n : Nat) : String :=
  (s.toList.take n).asString

/-- A Python runtime value as far as the checksum comparison in
`task_refresh_upstream_schedule` is concerned: either a `str`, or a `hashlib`
hash object identified by its allocation. -/
inductive PyVal where
  | str : String → PyVal
  | hashObj : Nat → PyVal
  deriving DecidableEq, Repr

/-- Python `==` between such values.  Strings compare by contents.  `hashlib`
hash objects define no custom equality, so they fall back to object identity;
in particular a hash object is never `==` to a string. -/
def pyEq : PyVal → PyVal → Bool
  | .str a, .str b => a = b
  | .hashObj a, .hashObj b => a = b
  | _, _ => false

/-- Lower-casing a string character by character (the effect of Django's
case-insensitive lookups). -/
def strToLower (s : String) : String :=
  (s.toList.map Char.toLower).asString

/-- Case-insensitive substring test, the semantics of Django's
`__icontains` lookup. -/
def iContains (hay needle : String) : Bool :=
  decide ((strToLower needle).toList <:+: (strToLower hay).toList)

/-- Django's `code__iexact=x` lookup on a nullable column: a stored `NULL`
matches nothing, a stored string matches case-insensitively. -/
def iexactMatches (code : Option String) (x : String) : Bool :=
  match code with
  | some c => decide (strToLower c = strToLower x)
  | none => false

/-! ## Dates and times -/

/-- A timestamp as produced by `dateutil.parser.parse(date + ' ' + time)`:
a calendar date (as an abstract day number) and a minute within the day. -/
structure DateTime where
  date : Int
  minute : Int
  deriving DecidableEq, Repr

/-- Strict chronological order on timestamps. -/
def DateTime.ltB (a b : DateTime) : Bool :=
  a.date < b.date || (a.date = b.date && a.minute < b.minute)

/-- Embeds `start + timedelta(minutes=m)`. -/
def DateTime.addMinutes (d : DateTime) (m : Int) : DateTime :=
  let total := d.date * 1440 + d.minute + m
  ⟨total / 1440, total % 1440⟩

/-! ## Parsed frab document

`ET.fromstring` and the per-field text extraction are embedded as structured
records: a `TalkXml` is one `<event>` element with the texts of its child
elements (`none` where the element is present but empty, or — for `end`,
`subtitle` text and `recording/optout` — where the element is missing).
Numeric and date texts (`date`, `start`, `duration`, `end`) are carried
pre-parsed; the claims under analysis do not concern malformed documents. -/

structure TalkXml where
  idText : String
  guid : String
  date : Int
  startMinute : Int
  durationHours : Nat
  durationMinutes : Nat
  endMinute : Option Int
  typeName : Option String
  trackName : Option String
  title : Option String
  subtitle : Option String
  description : Option String
  abstract : Option String
  language : Option String
  optoutText : Option String
  persons : List String
  deriving DecidableEq, Repr

structure RoomXml where
  name : String
  talks : List TalkXml
  deriving DecidableEq, Repr

structure DayXml where
  rooms : List RoomXml
  deriving DecidableEq, Repr

structure RootXml where
  version : String
  days : List DayXml
  deriving DecidableEq, Repr

/-! ## Entities and the store -/

structure Room where
  event : String
  name : String
  deriving DecidableEq, Repr

structure SubmissionType where
  event : String
  name : String
  default_duration : Nat
  deriving DecidableEq, Repr

structure Track where
  event : String
  name : String
  deriving DecidableEq, Repr

/-- Old/new value of one tracked field. -/
inductive FieldVal where
  | s : Option String → FieldVal
  | b : Bool → FieldVal
  deriving DecidableEq, Repr

structure Change where
  old : FieldVal
  new : FieldVal
  deriving DecidableEq, Repr

structure Submission where
  pk : Nat
  event : String
  code : Option String
  title : Option String := none
  description : Option String := none
  abstract : Option String := none
  content_locale : Option String := none
  do_not_record : Bool := false
  submission_type : SubmissionType
  track : Option Track := none
  speakers : List Nat := []
  deriving DecidableEq, Repr

structure User where
  pk : Nat
  name : String
  email : String
  deriving DecidableEq, Repr

structure SpeakerProfile where
  user : Nat
  event : String
  deriving DecidableEq, Repr

/-- A slot of the working (wip) schedule of an event.  The nullable `room`,
`start` and `end` columns are assigned by every merge before the slot is
saved. -/
structure TalkSlot where
  submission : Nat
  event : String
  room : Option String := none
  is_visible : Bool
  start : DateTime := ⟨0, 0⟩
  end_ : DateTime := ⟨0, 0⟩
  deriving DecidableEq, Repr

/-- Modelled from the spec: a released (frozen) schedule version — an
immutable snapshot of the working slots tagged with the upstream version
string; `speakers_notified` records whether the freeze notified speakers. -/
structure Schedule where
  event : String
  version : String
  slots : List TalkSlot
  speakers_notified : Bool
  deriving DecidableEq, Repr

/-- The per-talk change map recorded by a run: talk code (the dict key, which
may be Python `None`) to the list of changed fields in insertion order. -/
abbrev ChangeMap := List (Option String × List (String × Change))

/-- Modelled from the spec: the `UpstreamResult` audit record (the plugin's
`models.py` is not among the analysed sources).  Per the spec it stores the
event reference, an optional released-schedule reference, the raw content,
the serialized change map, a content fingerprint (`checksum`, a fixed-length
digest string of the raw bytes) and a timestamp. -/
structure UpstreamResult where
  event : String
  schedule : Option String
  content : String
  changes : ChangeMap
  checksum : String
  timestamp : Int
  deriving DecidableEq, Repr

/-- The plugin's per-event hierarkey settings, by their exact key names in the
sources.  Note `upstream_last_sync` (written in tasks.py) and
`downstream_last_sync` (read in signals.py) are distinct keys. -/
structure Settings where
  downstream_upstream_url : Option String := none
  downstream_interval : PyScalar := .none
  downstream_last_sync : Option Int := none
  upstream_last_sync : Option Int := none
  deriving DecidableEq, Repr

structure Event where
  slug : String
  name : String
  date_from : Int := 0
  date_to : Int := 0
  settings : Settings := {}
  deriving DecidableEq, Repr

/-- The persistent store: one list per table, plus primary-key counters for
the tables whose rows are referenced by pk. -/
structure Store where
  events : List Event
  rooms : List Room := []
  subTypes : List SubmissionType := []
  tracks : List Track := []
  submissions : List Submission := []
  users : List User := []
  profiles : List SpeakerProfile := []
  slots : List TalkSlot := []
  schedules : List Schedule := []
  upstreamResults : List UpstreamResult := []
  nextSubmissionPk : Nat := 0
  nextUserPk : Nat := 0
  deriving DecidableEq, Repr

/-! ## Entity resolution and merge (tasks.py `_create_talk`) -/

/-- Embeds `SubmissionType.objects.filter(event=…, name=talk.find('type').text,
default_duration=…).first()`, then create on no match with
`name=talk.find('type').text or 'default'`.  A `None` name filters on a
`NULL` name, which the non-null name column never matches. -/
def resolveSubmissionType (types : List SubmissionType) (event : String)
    (nameText : Option String) (dur : Nat) : SubmissionType × List SubmissionType :=
  let found := types.filter (fun t =>
    decide (t.event = event) &&
    (match nameText with
     | some n => decide (t.name = n)
     | none => false) &&
    decide (t.default_duration = dur))
  match found.head? with
  | some t => (t, types)
  | none =>
    let nt : SubmissionType := ⟨event, pyOr nameText "default", dur⟩
    (nt, types ++ [nt])

/-- Embeds `Track.objects.filter(event=…, name__icontains=…)` narrowed by
`str(t.name) == talk.find('track').text`; create on no exact match with
`name=… or 'default'`.  Django renders a `None` query value as the string
"None" inside the LIKE pattern, and the exact narrowing never equates a
string with `None`. -/
def resolveTrack (tracks : List Track) (event : String)
    (nameText : Option String) : Track × List Track :=
  let needle : String :=
    match nameText with
    | some s => s
    | none => "None"
  let candidates := tracks.filter (fun t =>
    decide (t.event = event) && iContains t.name needle)
  let exact := candidates.filter (fun t =>
    match nameText with
    | some s => decide (t.name = s)
    | none => false)
  match exact with
  | [] =>
    let nt : Track := ⟨event, pyOr nameText "default"⟩
    (nt, tracks ++ [nt])
  | t :: _ => (t, tracks)

/-- The two-step talk-code resolution: accept the upstream id when a talk of
this event already carries it (case-insensitively) or no talk anywhere does;
otherwise accept the guid truncated to 16 characters under the same rule;
otherwise leave the code `None`. -/
def resolveCode (subs : List Submission) (event : String)
    (idText guid : String) : Option String :=
  if subs.any (fun s => iexactMatches s.code idText && decide (s.event = event))
     || !(subs.any (fun s => iexactMatches s.code idText)) then
    some idText
  else if subs.any (fun s =>
          iexactMatches s.code (strTake guid 16) && decide (s.event = event))
     || !(subs.any (fun s => iexactMatches s.code (strTake guid 16))) then
    some (strTake guid 16)
  else
    none

/-- Embeds `Submission.objects.get_or_create(event=…, code=…, defaults={'submission_type': …})`.
Returns the row, the `created` flag, and the store. -/
def getOrCreateSubmission (store : Store) (event : String) (code : Option String)
    (subType : SubmissionType) : Submission × Bool × Store :=
  match store.submissions.find? (fun s => decide (s.event = event ∧ s.code = code)) with
  | some s => (s, false, store)
  | none =>
    let s : Submission :=
      { pk := store.nextSubmissionPk, event := event, code := code,
        submission_type := subType }
    (s, true,
     { store with submissions := store.submissions ++ [s],
                  nextSubmissionPk := store.nextSubmissionPk + 1 })

/-- Embeds `sub.save()`: write the (possibly mutated) row back by primary key. -/
def saveSubmission (store : Store) (sub : Submission) : Store :=
  { store with submissions := store.submissions.map (fun s =>
      if s.pk = sub.pk then sub else s) }

/-- The five tracked fields of the change-detection loop. -/
inductive TrackedField where
  | title | description | abstract | content_locale | do_not_record
  deriving DecidableEq, Repr

/-- The dict key under which a tracked field's change is recorded. -/
def TrackedField.key : TrackedField → String
  | .title => "title"
  | .description => "description"
  | .abstract => "abstract"
  | .content_locale => "content_locale"
  | .do_not_record => "do_not_record"

/-- Embeds `getattr(sub, key)` over the tracked fields. -/
def getF (sub : Submission) : TrackedField → FieldVal
  | .title => .s sub.title
  | .description => .s sub.description
  | .abstract => .s sub.abstract
  | .content_locale => .s sub.content_locale
  | .do_not_record => .b sub.do_not_record

/-- Embeds `setattr(sub, key, value)` over the tracked fields. -/
def setF (sub : Submission) : TrackedField → FieldVal → Submission
  | .title, .s v => { sub with title := v }
  | .description, .s v => { sub with description := v }
  | .abstract, .s v => { sub with abstract := v }
  | .content_locale, .s v => { sub with content_locale := v }
  | .do_not_record, .b v => { sub with do_not_record := v }
  | _, _ => sub

/-- The `change_tracking_data` dict, in insertion order, including the
subtitle folding (a truthy subtitle is prepended to the description with a
newline, the description defaulting to `''`) and the locale default
(`language or 'en'`). -/
def changeTrackingData (talk : TalkXml) (optout : Bool) :
    List (TrackedField × FieldVal) :=
  let desc : Option String :=
    match talk.subtitle with
    | some st =>
      if st = "" then talk.description
      else some (st ++ "\n" ++ (talk.description.getD ""))
    | none => talk.description
  [(.title, .s talk.title),
   (.description, .s desc),
   (.abstract, .s talk.abstract),
   (.content_locale, .s (some (pyOr talk.language "en"))),
   (.do_not_record, .b optout)]

/-- The change-detection loop: for each tracked field compare the stored value
with the new value; on inequality record `{old, new}` and overwrite the
field.  Returns the recorded changes (in loop order) and the mutated row. -/
def applyTrackedChanges (sub : Submission) :
    List (TrackedField × FieldVal) → List (String × Change) × Submission
  | [] => ([], sub)
  | (f, v) :: rest =>
    if getF sub f = v then
      applyTrackedChanges sub rest
    else
      let r := applyTrackedChanges (setF sub f v) rest
      ((f.key, ⟨getF sub f, v⟩) :: r.1, r.2)

/-- The return value of `_create_talk`: `{sub.code: changes}` when the row was
not created by this call and some tracked field changed, else `{}`. -/
def mergeContribution (created : Bool) (sub : Submission)
    (chs : List (String × Change)) : ChangeMap :=
  if created = false ∧ chs ≠ [] then [(sub.code, chs)] else []

/-- Embeds `User.objects.filter(name=person.text[:60]).first()`. -/
def lookupSpeaker (users : List User) (nameText : String) : Option User :=
  (users.filter (fun u => decide (u.name = strTake nameText 60))).head?

/-- One person of the `<persons>` loop: look up by truncated name; when absent
create a `User` with the full name and a synthesized `<name>@localhost`
address.  Returns the resolved user, whether it was created, the user table
and the next pk. -/
def speakerStep (users : List User) (nextPk : Nat) (nameText : String) :
    User × Bool × List User × Nat :=
  match lookupSpeaker users nameText with
  | some u => (u, false, users, nextPk)
  | none =>
    let u : User := ⟨nextPk, nameText, nameText ++ "@localhost"⟩
    (u, true, users ++ [u], nextPk + 1)

/-- Embeds `sub.speakers.add(user)`: set-like, additive only. -/
def addToSet (l : List Nat) (x : Nat) : List Nat :=
  if x ∈ l then l else l ++ [x]

/-- One iteration of the persons loop on the store: resolve or create the
user (creating an event `SpeakerProfile` alongside a new user) and add it to
the submission's speaker set. -/
def addSpeaker (store : Store) (event : String) (subPk : Nat)
    (nameText : String) : Store :=
  let r := speakerStep store.users store.nextUserPk nameText
  let store :=
    if r.2.1 then
      { store with users := r.2.2.1, nextUserPk := r.2.2.2,
                   profiles := store.profiles ++ [⟨r.1.pk, event⟩] }
    else store
  { store with submissions := store.submissions.map (fun s =>
      if s.pk = subPk then { s with speakers := addToSet s.speakers r.1.pk } else s) }

/-- The whole persons loop. -/
def addSpeakers (store : Store) (event : String) (subPk : Nat)
    (names : List String) : Store :=
  names.foldl (fun st n => addSpeaker st event subPk n) store

/-- Embeds `TalkSlot.objects.get_or_create(submission=…, schedule=event.wip_schedule,
defaults={'is_visible': True})` followed by assigning room, visibility, start
and end, and saving. -/
def upsertSlot (store : Store) (event : String) (subPk : Nat) (room : String)
    (start end_ : DateTime) : Store :=
  if store.slots.any (fun sl => decide (sl.submission = subPk ∧ sl.event = event)) then
    { store with slots := store.slots.map (fun sl =>
        if sl.submission = subPk ∧ sl.event = event then
          { sl with room := some room, is_visible := true,
                    start := start, end_ := end_ }
        else sl) }
  else
    { store with slots := store.slots ++
        [{ submission := subPk, event := event, room := some room,
           is_visible := true, start := start, end_ := end_ }] }

/-- The `_create_talk` function of tasks.py: resolve type, track, code and
row, apply the tracked-field merge, save, attach speakers, upsert the slot,
and return the per-talk change contribution together with the store. -/
def createTalk (talk : TalkXml) (room : String) (event : Event)
    (store : Store) : ChangeMap × Store :=
  let start : DateTime := ⟨talk.date, talk.startMinute⟩
  let durationInMinutes : Nat := talk.durationHours * 60 + talk.durationMinutes
  let end_ : DateTime :=
    match talk.endMinute with
    | some m => ⟨talk.date, m⟩
    | none => start.addMinutes durationInMinutes
  let r1 := resolveSubmissionType store.subTypes event.slug talk.typeName durationInMinutes
  let subType := r1.1
  let store1 := { store with subTypes := r1.2 }
  let r2 := resolveTrack store1.tracks event.slug talk.trackName
  let track := r2.1
  let store2 := { store1 with tracks := r2.2 }
  let optout : Bool :=
    match talk.optoutText with
    | some t => t = "true"
    | none => false
  let code := resolveCode store2.submissions event.slug talk.idText talk.guid
  let r3 := getOrCreateSubmission store2 event.slug code subType
  let created := r3.2.1
  let store3 := r3.2.2
  let sub := { r3.1 with submission_type := subType, track := some track }
  let r4 := applyTrackedChanges sub (changeTrackingData talk optout)
  let chs := r4.1
  let sub := r4.2
  let store4 := saveSubmission store3 sub
  let store5 := addSpeakers store4 event.slug sub.pk talk.persons
  let store6 := upsertSlot store5 event.slug sub.pk room start end_
  (mergeContribution created sub chs, store6)

/-! ## The per-run loop and release (tasks.py `process_frab`) -/

/-- Embeds `Room.objects.get_or_create(event=…, name=…)`. -/
def getOrCreateRoom (store : Store) (event name : String) : Room × Store :=
  match store.rooms.find? (fun r => decide (r.event = event ∧ r.name = name)) with
  | some r => (r, store)
  | none =>
    let r : Room := ⟨event, name⟩
    (r, { store with rooms := store.rooms ++ [r] })

/-- Python `dict.__setitem__`: replace an existing key in place, else append. -/
def dictInsert (m : ChangeMap) (k : Option String)
    (v : List (String × Change)) : ChangeMap :=
  if m.any (fun p => decide (p.1 = k)) then
    m.map (fun p => if p.1 = k then (k, v) else p)
  else m ++ [(k, v)]

/-- Python `dict.update`. -/
def dictUpdate (m adds : ChangeMap) : ChangeMap :=
  adds.foldl (fun acc p => dictInsert acc p.1 p.2) m

/-- The inner `for rm in day.findall('room')` body: get-or-create the room and
merge each of its `<event>` elements. -/
def processRoom (event : Event) (p : ChangeMap × Store) (rm : RoomXml) :
    ChangeMap × Store :=
  let r := getOrCreateRoom p.2 event.slug rm.name
  rm.talks.foldl (fun q tk =>
    let c := createTalk tk r.1.name event q.2
    (dictUpdate q.1 c.1, c.2)) (p.1, r.2)

/-- The `for day in root.findall('day')` loop collecting `changes`. -/
def processDays (root : RootXml) (event : Event) (store : Store) :
    ChangeMap × Store :=
  root.days.foldl (fun p day => day.rooms.foldl (processRoom event) p) ([], store)

/-- Modelled from the spec: pretalx `Schedule.freeze` — snapshot the working
slots of the event into an immutable release tagged with the version string,
recording whether speakers were notified; it fails (ReleaseFailed) on a
version collision, i.e. when a release with that version already exists. -/
def freeze (store : Store) (event : Event) (version : String)
    (notifySpeakers : Bool) : Except String Store :=
  if store.schedules.any (fun s => decide (s.event = event.slug ∧ s.version = version)) then
    .error "version collision"
  else
    let wip := store.slots.filter (fun sl => decide (sl.event = event.slug))
    .ok { store with schedules :=
      store.schedules ++ [⟨event.slug, version, wip, notifySpeakers⟩] }

/-- Embeds `event.schedules.get(version=…)`. -/
def getScheduleByVersion (store : Store) (eventSlug version : String) :
    Option Schedule :=
  (store.schedules.filter (fun s =>
    decide (s.event = eventSlug ∧ s.version = version))).head?

/-- Embeds `schedule.talks.update(is_visible=True)`. -/
def markScheduleVisible (store : Store) (eventSlug version : String) : Store :=
  { store with schedules := store.schedules.map (fun s =>
      if s.event = eventSlug ∧ s.version = version then
        { s with slots := s.slots.map (fun sl => { sl with is_visible := true }) }
      else s) }

/-- Embeds `schedule.talks.order_by('start').first()`'s start: the chronologically
least start among the released slots. -/
def minStartTime (slots : List TalkSlot) : Option DateTime :=
  match slots with
  | [] => none
  | sl :: rest =>
    some (rest.foldl (fun acc x => if x.start.ltB acc then x.start else acc) sl.start)

/-- Embeds `schedule.talks.order_by('-end').first()`'s end: the chronologically
greatest end among the released slots. -/
def maxEndTime (slots : List TalkSlot) : Option DateTime :=
  match slots with
  | [] => none
  | sl :: rest =>
    some (rest.foldl (fun acc x => if acc.ltB x.end_ then x.end_ else acc) sl.end_)

/-- Embeds `event.save()`. -/
def saveEvent (store : Store) (e : Event) : Store :=
  { store with events := store.events.map (fun x => if x.slug = e.slug then e else x) }

/-- Embeds `process_frab` of tasks.py, run under `transaction.atomic()`: merge every
talk of every room of every day, then, when a new version is to be released,
freeze the working schedule under the upstream version string without
notifying speakers, mark every released slot visible, and set the event's
date range from the released slots.  Any error aborts the transaction: the
caller keeps the pre-run store. -/
def process_frab (root : RootXml) (event : Event) (release_new_version : Bool)
    (store : Store) : Except String (ChangeMap × Option Schedule × Store) :=
  let p := processDays root event store
  let changes := p.1
  let store := p.2
  if release_new_version then
    let schedule_version := root.version
    match freeze store event schedule_version false with
    | .error _ =>
      .error "Could not import schedule: failed creating schedule release."
    | .ok store1 =>
      match getScheduleByVersion store1 event.slug schedule_version with
      | none =>
        .error "Could not import schedule: failed creating schedule release."
      | some sched =>
        let store2 := markScheduleVisible store1 event.slug schedule_version
        let schedSlots := sched.slots.map (fun sl => { sl with is_visible := true })
        match minStartTime schedSlots, maxEndTime schedSlots with
        | some startDT, some endDT =>
          let store3 := saveEvent store2
            { event with date_from := startDT.date, date_to := endDT.date }
          .ok (changes, some { sched with slots := schedSlots }, store3)
        | _, _ =>
          .error "AttributeError: NoneType has no attribute start"
  else
    .ok (changes, none, store)

/-! ## The refresh task (tasks.py `task_refresh_upstream_schedule`) -/

/-- Embeds `event.upstream_results.order_by('timestamp').first()`: ascending
timestamp order, so the row with the least timestamp (ties by table order). -/
def orderByTimestampFirst (results : List UpstreamResult) : Option UpstreamResult :=
  match results with
  | [] => none
  | r :: rest =>
    some (rest.foldl (fun acc x => if x.timestamp < acc.timestamp then x else acc) r)

/-- The prior result the change detector compares against. -/
def lastResultFor (store : Store) (eventSlug : String) : Option UpstreamResult :=
  orderByTimestampFirst (store.upstreamResults.filter (fun r => decide (r.event = eventSlug)))

/-- Embeds `Event.objects.get(slug__iexact=event_slug)`. -/
def findEventBySlug (store : Store) (slug : String) : Option Event :=
  store.events.find? (fun e => decide (strToLower e.slug = strToLower slug))

/-- Modelled from the spec: the event's current released version is its most
recently released schedule, if any (pretalx `Event.current_schedule`). -/
def currentSchedule (store : Store) (eventSlug : String) : Option Schedule :=
  (store.schedules.filter (fun s => decide (s.event = eventSlug))).getLast?

/-- Embeds `not event.current_schedule or schedule_version != event.current_schedule.version`. -/
def releaseNewVersion (store : Store) (eventSlug version : String) : Bool :=
  match currentSchedule store eventSlug with
  | none => true
  | some s => decide (version ≠ s.version)

/-- The up-to-date branch body: `event.settings.upstream_last_sync = now()`.
Note the key it writes. -/
def markSyncUpToDate (e : Event) (t : Int) : Event :=
  { e with settings := { e.settings with upstream_last_sync := some t } }

/-- Modelled from the spec: persisting the `UpstreamResult` audit record with
the content fingerprint (`fp`, the digest function, kept abstract as a
parameter — SHA-256 in the implementation) and the current timestamp. -/
def createUpstreamResult (fp : String → String) (store : Store)
    (eventSlug : String) (schedRef : Option String) (chs : ChangeMap)
    (content : String) (t : Int) : Store :=
  { store with upstreamResults := store.upstreamResults ++
      [⟨eventSlug, schedRef, content, chs, fp content, t⟩] }

/-- The guard `last_result and m == last_result.checksum` of tasks.py, where
`m` is the freshly allocated `hashlib.sha256()` object (after `m.update(…)`)
— the *object*, not its digest — and the stored checksum is a string. -/
def checksumUnchanged (lastResult : Option UpstreamResult) : Bool :=
  match lastResult with
  | some r => pyEq (.hashObj 0) (.str r.checksum)
  | none => false

/-- Embeds `task_refresh_upstream_schedule` of tasks.py.  The HTTP fetch is the
external boundary: `content` is the body of the 200 response and `root` its
parse. -/
def task_refresh_upstream_schedule (fp : String → String) (store : Store)
    (eventSlug : String) (content : String) (root : RootXml) (t : Int) :
    Except String Store :=
  match findEventBySlug store eventSlug with
  | none => .error "Event matching query does not exist."
  | some event =>
    if !(pyStrTruthy event.settings.downstream_upstream_url) then
      .error "No upstream URL was configured."
    else
      let unchanged := checksumUnchanged (lastResultFor store event.slug)
      if unchanged then
        .ok (saveEvent store (markSyncUpToDate event t))
      else
        let schedule_version := root.version
        let release := releaseNewVersion store event.slug schedule_version
        match process_frab root event release store with
        | .error e => .error e
        | .ok (chs, sched?, store') =>
          .ok (createUpstreamResult fp store' event.slug
                (sched?.map (fun s => s.version)) chs content t)

/-- One task invocation with its transactional semantics made explicit: on
any error nothing is committed (config and fetch errors happen before the
transaction opens; in-transaction errors roll back), so the pre-run store
survives; the second component reports the error, if any. -/
def runTask (fp : String → String) (store : Store) (eventSlug content : String)
    (root : RootXml) (t : Int) : Store × Option String :=
  match task_refresh_upstream_schedule fp store eventSlug content root t with
  | .ok s => (s, none)
  | .error e => (store, some e)

/-! ## The periodic trigger (signals.py `refresh_upstream_schedule`) -/

/-- The per-event body of the periodic receiver: for an event with a truthy
upstream URL, take `downstream_interval or 5`, convert with `int()` under an
`except TypeError` handler (a `ValueError` — e.g. from a non-numeric string —
propagates), and invoke the task when there is no `downstream_last_sync` or
`now() - last_pulled > timedelta(minutes=interval)`.  Returns whether the
task is invoked, or the uncaught exception. -/
def triggerCheck (e : Event) (t : Int) : Except PyError Bool :=
  if !(pyStrTruthy e.settings.downstream_upstream_url) then
    .ok false
  else
    let interval0 := pyOrScalar e.settings.downstream_interval 5
    match pyInt interval0 with
    | .error .typeError => triggerCompare e t 5
    | .error .valueError => .error .valueError
    | .ok n => triggerCompare e t n
where
  /-- The interval comparison against `downstream_last_sync`. -/
  triggerCompare (e : Event) (t : Int) (intervalMinutes : Int) :
      Except PyError Bool :=
    match e.settings.downstream_last_sync with
    | none => .ok true
    | some last => .ok (decide (t - last > intervalMinutes))

/-! ## Helper lemmas -/

theorem strTake_length (s : String) (n : Nat) :
    (strTake s n).length = min n s.length :=
  List.length_take n s.toList

theorem strTake_ne_of_long (s : String) (n : Nat) (h : n < s.length) :
    strTake s n ≠ s := by
  intro he
  have hl : (strTake s n).length = s.length := by rw [he]
  rw [strTake_length] at hl
  omega

/-! ## C3: which prior result does the change detector compare against? -/

def c3resultOld : UpstreamResult :=
  ⟨"evt", none, "old content", [], "digest-of-old", 1⟩

def c3resultNew : UpstreamResult :=
  ⟨"evt", none, "new content", [], "digest-of-new", 5⟩

def c3store : Store :=
  { events := [], upstreamResults := [c3resultOld, c3resultNew] }

/-- C3.  The claim says the change detector compares against the latest
(most recent by timestamp) prior RefreshResult.  The code runs
`order_by('timestamp').first()`, which sorts ascending and takes the first
row: with two prior results at timestamps 1 and 5 it selects the one at
timestamp 1 — the oldest, not the latest. -/
theorem change_detector_compares_oldest_result :
    lastResultFor c3store "evt" = some c3resultOld ∧
    c3resultOld.timestamp < c3resultNew.timestamp := by
  constructor
  · rfl
  · decide

/-! ## C7: the up-to-date mark versus the trigger's last-sync key -/

/-- C7.  The claim says the up-to-date short-circuit updates the very
timestamp the periodic trigger compares against its interval.  In the code
the short-circuit writes the settings key `upstream_last_sync` while the
trigger reads `downstream_last_sync`: the trigger's decision is completely
invariant under the short-circuit's update, for every event and every pair of
times. -/
theorem trigger_ignores_up_to_date_mark (e : Event) (t t' : Int) :
    triggerCheck (markSyncUpToDate e t) t' = triggerCheck e t' := rfl

/-! ## C8: non-numeric sync interval -/

def c8event : Event :=
  { slug := "evt", name := "Event",
    settings := { downstream_upstream_url := some "http://upstream",
                  downstream_interval := .str "abc",
                  downstream_last_sync := none } }

/-- C8.  The claim says a non-numeric configured interval does not make the
trigger fail and a default of 5 is used.  In the code `int('abc')` raises
`ValueError`, but the handler catches only `TypeError`, so the periodic
receiver fails with an uncaught exception instead of invoking the task. -/
theorem trigger_nonnumeric_interval_raises :
    triggerCheck c8event 10 = .error .valueError := rfl

/-! ## C4: guid fallback in talk-code resolution -/

/-- C4.  When the upstream id case-insensitively matches the code of a talk
of a different event, no talk of this event carries that code, and the guid
truncated to 16 characters either belongs to a talk of this event or to no
talk at all, resolution falls back to the truncated guid. -/
theorem code_resolution_guid_fallback (subs : List Submission)
    (event idText guid : String)
    (h1 : ∃ s ∈ subs, iexactMatches s.code idText = true ∧ s.event ≠ event)
    (h2 : ∀ s ∈ subs, s.event = event → iexactMatches s.code idText = false)
    (h3 : (∃ s ∈ subs, iexactMatches s.code (strTake guid 16) = true ∧ s.event = event) ∨
          (∀ s ∈ subs, iexactMatches s.code (strTake guid 16) = false)) :
    resolveCode subs event idText guid = some (strTake guid 16) := by
  have hA : subs.any
      (fun s => iexactMatches s.code idText && decide (s.event = event)) = false := by
    rw [List.any_eq_false]
    intro s hs
    by_cases he : s.event = event
    · simp [h2 s hs he]
    · simp [he]
  have hB : subs.any (fun s => iexactMatches s.code idText) = true := by
    rw [List.any_eq_true]
    obtain ⟨s, hs, hx, _⟩ := h1
    exact ⟨s, hs, hx⟩
  have hC : (subs.any (fun s =>
        iexactMatches s.code (strTake guid 16) && decide (s.event = event))
      || !(subs.any (fun s => iexactMatches s.code (strTake guid 16)))) = true := by
    rcases h3 with ⟨s, hs, hx, he⟩ | hall
    · apply Bool.or_eq_true_iff.mpr
      left
      rw [List.any_eq_true]
      exact ⟨s, hs, by simp [hx, he]⟩
    · apply Bool.or_eq_true_iff.mpr
      right
      simp only [Bool.not_eq_true']
      rw [List.any_eq_false]
      intro s hs
      simp [hall s hs]
  unfold resolveCode
  rw [hA, hB, hC]
  simp

def c4foreign : Submission :=
  { pk := 0, event := "other", code := some "ID1",
    submission_type := ⟨"other", "talk", 30⟩ }

theorem code_resolution_guid_fallback_witness :
    resolveCode [c4foreign] "this" "id1" "abcdefghijklmnopqrst"
      = some (strTake "abcdefghijklmnopqrst" 16) ∧
    strTake "abcdefghijklmnopqrst" 16 = "abcdefghijklmnop" :=
  ⟨code_resolution_guid_fallback [c4foreign] "this" "id1" "abcdefghijklmnopqrst"
    (by decide) (by decide) (Or.inr (by decide)),
   by decide⟩

/-! ## C9: submission-type resolution on repeated runs -/

/-- C9 counterexample.  The claim says re-processing the same talk record —
"same type name, possibly absent" — matches the type created by the first run
and creates no additional SubmissionType.  With an absent type name the
lookup filters on a `NULL` name and never matches the "default"-named type
the first run created: starting from no types, the first run creates one and
the second run creates a second. -/
theorem absent_type_name_creates_type_each_run :
    ((resolveSubmissionType [] "evt" none 30).2).length = 1 ∧
    ((resolveSubmissionType (resolveSubmissionType [] "evt" none 30).2
        "evt" none 30).2).length = 2 := by decide

/-- C9 amended.  Resolution finds an existing type of the event by exact
match on (name, duration) and creates one only when no match exists, naming
it "default" when the upstream supplies none; when the upstream supplies a
non-empty type name, processing the same record a second time resolves to
the same type and leaves the type table unchanged. -/
theorem named_type_resolution_idempotent (types : List SubmissionType)
    (event n : String) (dur : Nat) (h : n ≠ "") :
    resolveSubmissionType (resolveSubmissionType types event (some n) dur).2
        event (some n) dur
      = ((resolveSubmissionType types event (some n) dur).1,
         (resolveSubmissionType types event (some n) dur).2) := by
  have hname : pyOr (some n) "default" = n := by simp [pyOr, h]
  unfold resolveSubmissionType
  simp only
  cases hf : (types.filter (fun t =>
      decide (t.event = event) && decide (t.name = n) &&
      decide (t.default_duration = dur))).head? with
  | some t => simp [hf]
  | none =>
    have hemp : types.filter (fun t =>
        decide (t.event = event) && decide (t.name = n) &&
        decide (t.default_duration = dur)) = [] :=
      List.head?_eq_none_iff.mp hf
    simp [hf, hname, List.filter_append, hemp]

theorem named_type_resolution_idempotent_witness :
    resolveSubmissionType (resolveSubmissionType [] "evt" (some "talk") 60).2
        "evt" (some "talk") 60
      = ((resolveSubmissionType [] "evt" (some "talk") 60).1,
         (resolveSubmissionType [] "evt" (some "talk") 60).2) :=
  named_type_resolution_idempotent [] "evt" "talk" 60 (by decide)

/-! ## C10: speaker lookup truncates, creation does not -/

/-- C10.  The lookup filters on the display name truncated to 60 characters,
but a created person stores the full name (with a synthesized
`<name>@localhost` address).  For a name longer than 60 characters, assuming
no existing user happens to carry the truncated name: the first run creates a
user with the full name, that user is never matched by the truncated-name
lookup, and a second run creates another user with the same full name under a
fresh pk. -/
theorem long_speaker_name_recreated (users : List User) (pk : Nat) (name : String)
    (hlen : 60 < name.length)
    (hfresh : ∀ u ∈ users, u.name ≠ strTake name 60) :
    (speakerStep users pk name).2.2.1
        = users ++ [⟨pk, name, name ++ "@localhost"⟩] ∧
    lookupSpeaker (users ++ [⟨pk, name, name ++ "@localhost"⟩]) name = none ∧
    (speakerStep (users ++ [⟨pk, name, name ++ "@localhost"⟩]) (pk + 1) name).2.2.1
        = users ++ [⟨pk, name, name ++ "@localhost"⟩,
                    ⟨pk + 1, name, name ++ "@localhost"⟩] := by
  have hne : strTake name 60 ≠ name := strTake_ne_of_long name 60 hlen
  have hfilter : users.filter (fun u => decide (u.name = strTake name 60)) = [] := by
    rw [List.filter_eq_nil_iff]
    intro u hu
    simp [hfresh u hu]
  have hlook : lookupSpeaker users name = none := by
    rw [lookupSpeaker, hfilter]
    rfl
  have hlook2 : lookupSpeaker (users ++ [⟨pk, name, name ++ "@localhost"⟩]) name = none := by
    rw [lookupSpeaker, List.filter_append, hfilter]
    have : ([(⟨pk, name, name ++ "@localhost"⟩ : User)].filter
        (fun u => decide (u.name = strTake name 60))) = [] := by
      simp [List.filter, hne.symm]
    rw [this]
    rfl
  refine ⟨?_, hlook2, ?_⟩
  · rw [speakerStep, hlook]
  · rw [speakerStep, hlook2]
    simp

def c10name : String := String.mk (List.replicate 61 'a')

theorem long_speaker_name_recreated_witness :
    lookupSpeaker ([] ++ [⟨0, c10name, c10name ++ "@localhost"⟩]) c10name = none ∧
    (speakerStep ([] ++ [⟨0, c10name, c10name ++ "@localhost"⟩]) (0 + 1) c10name).2.2.1
        = [] ++ [⟨0, c10name, c10name ++ "@localhost"⟩,
                 ⟨0 + 1, c10name, c10name ++ "@localhost"⟩] :=
  ⟨(long_speaker_name_recreated [] 0 c10name (by decide) (by simp)).2.1,
   (long_speaker_name_recreated [] 0 c10name (by decide) (by simp)).2.2⟩

/-! ## C5: shape of the per-talk change contribution -/

/-- Follows the claim's wording (the refinement side, to be compared with the
loop extracted from the source): the change map lists, in field order, exactly
the tracked fields whose incoming value differs from the stored value, each
as `{field: {old: stored, new: incoming}}`. -/
def specDifferingChanges (sub : Submission)
    (data : List (TrackedField × FieldVal)) : List (String × Change) :=
  data.filterMap (fun fv =>
    if getF sub fv.1 = fv.2 then none
    else some (fv.1.key, ⟨getF sub fv.1, fv.2⟩))

theorem getF_setF_ne (sub : Submission) (f g : TrackedField) (v : FieldVal)
    (h : f ≠ g) : getF (setF sub g v) f = getF sub f := by
  cases f <;> cases g <;> cases v <;> simp_all [getF, setF]

theorem code_setF (sub : Submission) (g : TrackedField) (v : FieldVal) :
    (setF sub g v).code = sub.code := by
  cases g <;> cases v <;> simp [setF]

theorem applyTrackedChanges_eq_spec (data : List (TrackedField × FieldVal))
    (hd : data.Pairwise (fun a b => a.1 ≠ b.1)) (sub : Submission) :
    (applyTrackedChanges sub data).1 = specDifferingChanges sub data ∧
    (applyTrackedChanges sub data).2.code = sub.code := by
  induction data generalizing sub with
  | nil => simp [applyTrackedChanges, specDifferingChanges]
  | cons fv tl ih =>
    obtain ⟨f, v⟩ := fv
    rw [List.pairwise_cons] at hd
    have hspec : ∀ sub' : Submission,
        specDifferingChanges sub' ((f, v) :: tl)
          = (if getF sub' f = v then [] else [(f.key, ⟨getF sub' f, v⟩)])
            ++ specDifferingChanges sub' tl := by
      intro sub'
      by_cases h : getF sub' f = v <;>
        simp [specDifferingChanges, List.filterMap_cons, h]
    by_cases h : getF sub f = v
    · have := ih hd.2 sub
      rw [applyTrackedChanges, if_pos h, hspec]
      simp [h, this.1, this.2]
    · have := ih hd.2 (setF sub f v)
      have hsame : specDifferingChanges (setF sub f v) tl
          = specDifferingChanges sub tl := by
        apply List.filterMap_congr
        intro x hx
        have hne : x.1 ≠ f := fun he =>
          (hd.1 x hx) (by rw [he])
        rw [getF_setF_ne sub x.1 f v hne]
      rw [applyTrackedChanges, if_neg h, hspec]
      simp only [h, if_neg h]
      constructor
      · simp [this.1, hsame]
      · rw [this.2, code_setF]

theorem changeTrackingData_pairwise (talk : TalkXml) (optout : Bool) :
    (changeTrackingData talk optout).Pairwise (fun a b => a.1 ≠ b.1) := by
  simp [changeTrackingData, List.pairwise_cons]

/-- C5 amended.  The per-talk contribution returned by the merge is
`{talk-code: changes}` exactly when the submission row was not created by
this merge's own get-or-create (a talk created by an earlier record of the
same run counts as already existing) and at least one tracked field differs;
the recorded changes are exactly the differing tracked fields, each with its
old stored value and new incoming value; a talk created by its own merge step
always contributes an empty change set. -/
theorem merge_contribution_exact (talk : TalkXml) (optout : Bool)
    (sub : Submission) (created : Bool) :
    mergeContribution created
        (applyTrackedChanges sub (changeTrackingData talk optout)).2
        (applyTrackedChanges sub (changeTrackingData talk optout)).1
      = if created = false ∧
           specDifferingChanges sub (changeTrackingData talk optout) ≠ [] then
          [(sub.code, specDifferingChanges sub (changeTrackingData talk optout))]
        else [] := by
  obtain ⟨h1, h2⟩ := applyTrackedChanges_eq_spec
    (changeTrackingData talk optout) (changeTrackingData_pairwise talk optout) sub
  rw [mergeContribution, h1, h2]

def c5talkA : TalkXml :=
  { idText := "7", guid := "g-a", date := 10, startMinute := 540,
    durationHours := 1, durationMinutes := 0, endMinute := none,
    typeName := some "talk", trackName := some "tr",
    title := some "A", subtitle := some "", description := some "D",
    abstract := some "X", language := some "en", optoutText := none,
    persons := [] }

def c5talkB : TalkXml :=
  { c5talkA with title := some "B" }

def c5event : Event :=
  { slug := "evt", name := "Event" }

def c5store : Store :=
  { events := [c5event] }

/-- C5 counterexample.  The claim says a non-empty contribution implies the
talk existed before this run (and that a talk created in this run always
contributes an empty change set).  Processing a document that carries two
records with the same upstream id — the second with a different title —
against a store with no submissions at all: the first record creates the
talk, and the second record's merge returns a non-empty contribution for
that same talk, which did not exist before the run. -/
theorem created_this_run_still_reported :
    c5store.submissions = [] ∧
    (createTalk c5talkB "R" c5event (createTalk c5talkA "R" c5event c5store).2).1
      ≠ [] := by decide

/-! ## C1: byte-identical content on a second run -/

def c1event : Event :=
  { slug := "evt", name := "Event",
    settings := { downstream_upstream_url := some "http://upstream" } }

def c1prior : UpstreamResult :=
  ⟨"evt", none, "<schedule/>", [], "<schedule/>", 0⟩

def c1store : Store :=
  { events := [c1event],
    schedules := [⟨"evt", "v1", [], false⟩],
    upstreamResults := [c1prior] }

def c1root : RootXml := ⟨"v1", []⟩

/-- C1.  The claim says a run whose fetched bytes equal the latest prior
result's content updates the last-sync time and terminates, leaving exactly
one RefreshResult.  In the code the guard compares the freshly allocated
sha256 *object* `m` — never its digest — with the stored checksum string,
which is always false in Python, so the short-circuit never fires: re-running
on byte-identical content (here `"<schedule/>"`, identical to the only prior
result, with the digest function instantiated as the identity so the stored
checksum is the fingerprint of that very content) completes a full second run,
appends a second UpstreamResult, and leaves the last-sync settings untouched. -/
theorem identical_content_rerun_not_short_circuited :
    (runTask (fun s => s) c1store "evt" "<schedule/>" c1root 7).2 = none ∧
    (runTask (fun s => s) c1store "evt" "<schedule/>" c1root 7).1.upstreamResults.length = 2 ∧
    (runTask (fun s => s) c1store "evt" "<schedule/>" c1root 7).1.events = c1store.events := by
  decide

/-! ## Schedules are untouched by the merge loop -/

theorem saveSubmission_schedules (store : Store) (sub : Submission) :
    (saveSubmission store sub).schedules = store.schedules := rfl

theorem addSpeaker_schedules (store : Store) (event : String) (subPk : Nat)
    (nameText : String) :
    (addSpeaker store event subPk nameText).schedules = store.schedules := by
  unfold addSpeaker
  dsimp only
  split <;> rfl

theorem addSpeakers_schedules (names : List String) (store : Store)
    (event : String) (subPk : Nat) :
    (addSpeakers store event subPk names).schedules = store.schedules := by
  induction names generalizing store with
  | nil => rfl
  | cons n ns ih =>
    unfold addSpeakers at ih ⊢
    rw [List.foldl_cons, ih, addSpeaker_schedules]

theorem upsertSlot_schedules (store : Store) (event : String) (subPk : Nat)
    (room : String) (start end_ : DateTime) :
    (upsertSlot store event subPk room start end_).schedules = store.schedules := by
  unfold upsertSlot
  split <;> rfl

theorem getOrCreateSubmission_schedules (store : Store) (event : String)
    (code : Option String) (subType : SubmissionType) :
    (getOrCreateSubmission store event code subType).2.2.schedules
      = store.schedules := by
  unfold getOrCreateSubmission
  split <;> rfl

theorem getOrCreateRoom_schedules (store : Store) (event name : String) :
    (getOrCreateRoom store event name).2.schedules = store.schedules := by
  unfold getOrCreateRoom
  split <;> rfl

theorem createTalk_schedules (talk : TalkXml) (room : String) (event : Event)
    (store : Store) :
    (createTalk talk room event store).2.schedules = store.schedules := by
  unfold createTalk
  dsimp only
  rw [upsertSlot_schedules, addSpeakers_schedules, saveSubmission_schedules,
    getOrCreateSubmission_schedules]

theorem processRoom_schedules (rm : RoomXml) (event : Event)
    (p : ChangeMap × Store) :
    (processRoom event p rm).2.schedules = p.2.schedules := by
  unfold processRoom
  dsimp only
  rw [show ∀ (l : List TalkXml) (q : ChangeMap × Store) (room : String),
      (l.foldl (fun q tk =>
        ((dictUpdate q.1 (createTalk tk room event q.2).1),
          (createTalk tk room event q.2).2)) q).2.schedules = q.2.schedules from ?_,
    getOrCreateRoom_schedules]
  intro l
  induction l with
  | nil => intro q room; rfl
  | cons tk tl ih =>
    intro q room
    rw [List.foldl_cons, ih, createTalk_schedules]

theorem processDays_schedules (root : RootXml) (event : Event) (store : Store) :
    (processDays root event store).2.schedules = store.schedules := by
  unfold processDays
  rw [show ∀ (days : List DayXml) (p : ChangeMap × Store),
      (days.foldl (fun p day => day.rooms.foldl (processRoom event) p) p).2.schedules
        = p.2.schedules from ?_]
  intro days
  induction days with
  | nil => intro p; rfl
  | cons d ds ih =>
    intro p
    rw [List.foldl_cons, ih]
    generalize p = q
    induction d.rooms generalizing q with
    | nil => rfl
    | cons r rs ihr =>
      rw [List.foldl_cons, ihr, processRoom_schedules]

/-! ## C2: a failed release rolls back the whole run -/

theorem pyEq_hash_str (a : Nat) (s : String) :
    pyEq (.hashObj a) (.str s) = false := rfl

/-- C2.  When the run releases (version pending) and the freeze fails —
modelled failure cause: a release with the upstream version string already
exists — the task errors and the committed store is exactly the pre-run
store: every Room/Track/SubmissionType/Submission/User/Profile/TalkSlot
row created or modified by the merge loop is discarded, and no
UpstreamResult is written. -/
theorem release_failure_rolls_back (fp : String → String) (store : Store)
    (slug content : String) (root : RootXml) (t : Int) (event : Event)
    (hev : findEventBySlug store slug = some event)
    (hurl : pyStrTruthy event.settings.downstream_upstream_url = true)
    (hrel : releaseNewVersion store event.slug root.version = true)
    (hcol : store.schedules.any (fun s =>
        decide (s.event = event.slug ∧ s.version = root.version)) = true) :
    runTask fp store slug content root t
      = (store, some "Could not import schedule: failed creating schedule release.") := by
  have hfrab : process_frab root event true store
      = .error "Could not import schedule: failed creating schedule release." := by
    unfold process_frab freeze
    dsimp only
    rw [processDays_schedules, hcol]
    simp
  have hunch : ∀ r?, checksumUnchanged r? = false := by
    intro r?
    cases r? <;> rfl
  have htask : task_refresh_upstream_schedule fp store slug content root t
      = .error "Could not import schedule: failed creating schedule release." := by
    unfold task_refresh_upstream_schedule
    rw [hev]
    simp only [hurl, hunch, hrel, Bool.not_true, Bool.false_eq_true, if_false, hfrab]
  rw [runTask, htask]

def c2event : Event :=
  { slug := "evt", name := "Event",
    settings := { downstream_upstream_url := some "http://upstream" } }

def c2talk : TalkXml :=
  { idText := "1", guid := "0123456789abcdefg", date := 20, startMinute := 600,
    durationHours := 0, durationMinutes := 30, endMinute := none,
    typeName := some "talk", trackName := some "main",
    title := some "T", subtitle := some "", description := some "D",
    abstract := some "A", language := some "en", optoutText := none,
    persons := ["Alice"] }

def c2store : Store :=
  { events := [c2event],
    schedules := [⟨"evt", "v1", [], false⟩, ⟨"evt", "v2", [], false⟩] }

def c2root : RootXml := ⟨"v1", [⟨[⟨"R", [c2talk]⟩]⟩]⟩

theorem release_failure_rolls_back_witness :
    runTask (fun s => s) c2store "evt" "content" c2root 3
      = (c2store, some "Could not import schedule: failed creating schedule release.") :=
  release_failure_rolls_back (fun s => s) c2store "evt" "content" c2root 3 c2event
    (by decide) (by decide) (by decide) (by decide)

/-! ## C6: releasing marks slots visible and recomputes the date range -/

theorem ltB_eq_true (a b : DateTime) :
    (a.ltB b = true) ↔ (a.date < b.date ∨ (a.date = b.date ∧ a.minute < b.minute)) := by
  simp [DateTime.ltB]

theorem ltB_eq_false (a b : DateTime) :
    (a.ltB b = false) ↔ ¬(a.date < b.date ∨ (a.date = b.date ∧ a.minute < b.minute)) := by
  rw [Bool.eq_false_iff]
  exact not_congr (ltB_eq_true a b)

def foldlMinDT (l : List DateTime) (a : DateTime) : DateTime :=
  l.foldl (fun acc d => if d.ltB acc then d else acc) a

def foldlMaxDT (l : List DateTime) (a : DateTime) : DateTime :=
  l.foldl (fun acc d => if acc.ltB d then d else acc) a

theorem foldlMinDT_spec (l : List DateTime) (a : DateTime) :
    (foldlMinDT l a = a ∨ foldlMinDT l a ∈ l) ∧
    a.ltB (foldlMinDT l a) = false ∧
    ∀ d ∈ l, d.ltB (foldlMinDT l a) = false := by
  induction l generalizing a with
  | nil =>
    refine ⟨Or.inl rfl, ?_, by simp⟩
    rw [show foldlMinDT [] a = a from rfl, ltB_eq_false]
    omega
  | cons x xs ih =>
    have hstep : foldlMinDT (x :: xs) a = foldlMinDT xs (if x.ltB a then x else a) := rfl
    obtain ⟨ihm, iha, ihall⟩ := ih (if x.ltB a then x else a)
    rw [hstep]
    by_cases hx : x.ltB a = true
    · rw [if_pos hx] at ihm iha ihall ⊢
      refine ⟨?_, ?_, ?_⟩
      · rcases ihm with hm | hm
        · exact Or.inr (by rw [hm]; exact List.mem_cons_self x xs)
        · exact Or.inr (List.mem_cons_of_mem x hm)
      · rw [ltB_eq_false] at iha ⊢
        rw [ltB_eq_true] at hx
        omega
      · intro d hd
        rcases List.mem_cons.mp hd with hdx | hdxs
        · rw [hdx]; exact iha
        · exact ihall d hdxs
    · rw [if_neg hx] at ihm iha ihall ⊢
      have hx' : x.ltB a = false := Bool.eq_false_iff.mpr hx
      refine ⟨?_, iha, ?_⟩
      · rcases ihm with hm | hm
        · exact Or.inl hm
        · exact Or.inr (List.mem_cons_of_mem x hm)
      · intro d hd
        rcases List.mem_cons.mp hd with hdx | hdxs
        · rw [hdx]
          rw [ltB_eq_false] at iha ⊢
          rw [ltB_eq_false] at hx'
          omega
        · exact ihall d hdxs

theorem foldlMaxDT_spec (l : List DateTime) (a : DateTime) :
    (foldlMaxDT l a = a ∨ foldlMaxDT l a ∈ l) ∧
    (foldlMaxDT l a).ltB a = false ∧
    ∀ d ∈ l, (foldlMaxDT l a).ltB d = false := by
  induction l generalizing a with
  | nil =>
    refine ⟨Or.inl rfl, ?_, by simp⟩
    rw [show foldlMaxDT [] a = a from rfl, ltB_eq_false]
    omega
  | cons x xs ih =>
    have hstep : foldlMaxDT (x :: xs) a = foldlMaxDT xs (if a.ltB x then x else a) := rfl
    obtain ⟨ihm, iha, ihall⟩ := ih (if a.ltB x then x else a)
    rw [hstep]
    by_cases hx : a.ltB x = true
    · rw [if_pos hx] at ihm iha ihall ⊢
      refine ⟨?_, ?_, ?_⟩
      · rcases ihm with hm | hm
        · exact Or.inr (by rw [hm]; exact List.mem_cons_self x xs)
        · exact Or.inr (List.mem_cons_of_mem x hm)
      · rw [ltB_eq_false] at iha ⊢
        rw [ltB_eq_true] at hx
        omega
      · intro d hd
        rcases List.mem_cons.mp hd with hdx | hdxs
        · rw [hdx]; exact iha
        · exact ihall d hdxs
    · rw [if_neg hx] at ihm iha ihall ⊢
      have hx' : a.ltB x = false := Bool.eq_false_iff.mpr hx
      refine ⟨?_, iha, ?_⟩
      · rcases ihm with hm | hm
        · exact Or.inl hm
        · exact Or.inr (List.mem_cons_of_mem x hm)
      · intro d hd
        rcases List.mem_cons.mp hd with hdx | hdxs
        · rw [hdx]
          rw [ltB_eq_false] at iha ⊢
          rw [ltB_eq_false] at hx'
          omega
        · exact ihall d hdxs

theorem minStartTime_spec (slots : List TalkSlot) (d : DateTime)
    (h : minStartTime slots = some d) :
    (∃ sl ∈ slots, sl.start = d) ∧ ∀ sl ∈ slots, sl.start.ltB d = false := by
  cases slots with
  | nil => simp [minStartTime] at h
  | cons s rest =>
    rw [minStartTime, Option.some.injEq] at h
    have hspec := foldlMinDT_spec (rest.map (fun sl => sl.start)) s.start
    rw [foldlMinDT, List.foldl_map] at hspec
    rw [h] at hspec
    obtain ⟨hm, ha, hall⟩ := hspec
    constructor
    · rcases hm with hm | hm
      · exact ⟨s, List.mem_cons_self s rest, hm.symm⟩
      · obtain ⟨sl, hsl, hsl'⟩ := List.mem_map.mp hm
        exact ⟨sl, List.mem_cons_of_mem s hsl, hsl'⟩
    · intro sl hsl
      rcases List.mem_cons.mp hsl with hs | hs
      · rw [hs]; exact ha
      · exact hall sl.start (List.mem_map.mpr ⟨sl, hs, rfl⟩)

theorem maxEndTime_spec (slots : List TalkSlot) (d : DateTime)
    (h : maxEndTime slots = some d) :
    (∃ sl ∈ slots, sl.end_ = d) ∧ ∀ sl ∈ slots, d.ltB sl.end_ = false := by
  cases slots with
  | nil => simp [maxEndTime] at h
  | cons s rest =>
    rw [maxEndTime, Option.some.injEq] at h
    have hspec := foldlMaxDT_spec (rest.map (fun sl => sl.end_)) s.end_
    rw [foldlMaxDT, List.foldl_map] at hspec
    rw [h] at hspec
    obtain ⟨hm, ha, hall⟩ := hspec
    constructor
    · rcases hm with hm | hm
      · exact ⟨s, List.mem_cons_self s rest, hm.symm⟩
      · obtain ⟨sl, hsl, hsl'⟩ := List.mem_map.mp hm
        exact ⟨sl, List.mem_cons_of_mem s hsl, hsl'⟩
    · intro sl hsl
      rcases List.mem_cons.mp hsl with hs | hs
      · rw [hs]; exact ha
      · exact hall sl.end_ (List.mem_map.mpr ⟨sl, hs, rfl⟩)

theorem freeze_ok (store : Store) (event : Event) (version : String) (nf : Bool)
    (store1 : Store) (h : freeze store event version nf = .ok store1) :
    store1.schedules = store.schedules ++
      [⟨event.slug, version,
        store.slots.filter (fun sl => decide (sl.event = event.slug)), nf⟩] ∧
    store1.events = store.events ∧
    store.schedules.any (fun s =>
      decide (s.event = event.slug ∧ s.version = version)) = false := by
  unfold freeze at h
  split at h
  · exact absurd h (by simp)
  · rename_i hcol
    rw [Except.ok.injEq] at h
    subst h
    exact ⟨rfl, rfl, Bool.eq_false_iff.mpr hcol⟩

/-- C6.  When the upstream version string differs from the event's current
released version (or none exists) and the run succeeds, the run froze the
working schedule into a release carrying the upstream version string with
speakers not notified, every slot of the release is visible, and the event
record's date range is set to exactly [date of the earliest slot start, date
of the latest slot end] over the released slots. -/
theorem release_freezes_and_sets_date_range (root : RootXml) (event : Event)
    (store : Store) (chs : ChangeMap) (sched : Schedule) (store' : Store)
    (hrel : releaseNewVersion store event.slug root.version = true)
    (h : process_frab root event (releaseNewVersion store event.slug root.version) store
          = .ok (chs, some sched, store')) :
    sched.event = event.slug ∧
    sched.version = root.version ∧
    sched.speakers_notified = false ∧
    (∀ sl ∈ sched.slots, sl.is_visible = true) ∧
    (∃ d1 d2,
      minStartTime sched.slots = some d1 ∧
      maxEndTime sched.slots = some d2 ∧
      (∃ sl ∈ sched.slots, sl.start = d1) ∧
      (∀ sl ∈ sched.slots, sl.start.ltB d1 = false) ∧
      (∃ sl ∈ sched.slots, sl.end_ = d2) ∧
      (∀ sl ∈ sched.slots, d2.ltB sl.end_ = false) ∧
      (∀ e' ∈ store'.events, e'.slug = event.slug →
        e'.date_from = d1.date ∧ e'.date_to = d2.date)) := by
  rw [hrel] at h
  unfold process_frab at h
  dsimp only at h
  rw [if_pos rfl] at h
  split at h
  · exact absurd h (by simp)
  · rename_i store1 hfz
    obtain ⟨hsch1, hev1, hnocol⟩ := freeze_ok _ _ _ _ _ hfz
    split at h
    · exact absurd h (by simp)
    · rename_i sched0 hget
      have hfil : (processDays root event store).2.schedules.filter
          (fun s => decide (s.event = event.slug ∧ s.version = root.version)) = [] := by
        rw [List.filter_eq_nil_iff]
        exact List.any_eq_false.mp hnocol
      have hget' : getScheduleByVersion store1 event.slug root.version
          = some ⟨event.slug, root.version,
              (processDays root event store).2.slots.filter
                (fun sl => decide (sl.event = event.slug)), false⟩ := by
        unfold getScheduleByVersion
        rw [hsch1, List.filter_append, hfil]
        simp
      rw [hget] at hget'
      have hs0 := Option.some.inj hget'
      subst hs0
      split at h
      · rename_i startDT endDT hmin hmax
        simp only [Except.ok.injEq, Prod.mk.injEq, Option.some.injEq] at h
        obtain ⟨hchs, hsched, hstore⟩ := h
        subst hsched
        subst hstore
        refine ⟨rfl, rfl, rfl, ?_, startDT, endDT, hmin, hmax, ?_⟩
        · intro sl hsl
          obtain ⟨x, _, hx⟩ := List.mem_map.mp hsl
          rw [← hx]
        · obtain ⟨hmem1, hall1⟩ := minStartTime_spec _ _ hmin
          obtain ⟨hmem2, hall2⟩ := maxEndTime_spec _ _ hmax
          refine ⟨hmem1, hall1, hmem2, hall2, ?_⟩
          intro e' he' hslug
          obtain ⟨x, _, hx⟩ := List.mem_map.mp he'
          by_cases hxs : x.slug = event.slug
          · rw [if_pos hxs] at hx
            rw [← hx]
            exact ⟨rfl, rfl⟩
          · rw [if_neg hxs] at hx
            rw [← hx] at hslug
            exact absurd hslug hxs
      · rename_i hne
        exact absurd h (by simp)

def c6event : Event := { slug := "evt", name := "Event" }

def c6talk : TalkXml :=
  { idText := "5", guid := "case-guid", date := 10, startMinute := 540,
    durationHours := 1, durationMinutes := 0, endMinute := none,
    typeName := some "talk", trackName := some "main",
    title := some "T", subtitle := some "", description := some "D",
    abstract := some "A", language := some "en", optoutText := none,
    persons := ["P"] }

def c6store : Store := { events := [c6event] }

def c6root : RootXml := ⟨"v1", [⟨[⟨"R", [c6talk]⟩]⟩]⟩

def c6slot : TalkSlot :=
  { submission := 0, event := "evt", room := some "R", is_visible := true,
    start := ⟨10, 540⟩, end_ := ⟨10, 600⟩ }

def c6sched : Schedule := ⟨"evt", "v1", [c6slot], false⟩

def c6eventFinal : Event :=
  { slug := "evt", name := "Event", date_from := 10, date_to := 10 }

def c6submission : Submission :=
  { pk := 0, event := "evt", code := some "5", title := some "T",
    description := some "D", abstract := some "A",
    content_locale := some "en", do_not_record := false,
    submission_type := ⟨"evt", "talk", 60⟩, track := some ⟨"evt", "main"⟩,
    speakers := [0] }

def c6storeFinal : Store :=
  { events := [c6eventFinal],
    rooms := [⟨"evt", "R"⟩],
    subTypes := [⟨"evt", "talk", 60⟩],
    tracks := [⟨"evt", "main"⟩],
    submissions := [c6submission],
    users := [⟨0, "P", "P@localhost"⟩],
    profiles := [⟨0, "evt"⟩],
    slots := [c6slot],
    schedules := [c6sched],
    upstreamResults := [],
    nextSubmissionPk := 1,
    nextUserPk := 1 }

theorem release_freezes_and_sets_date_range_witness :
    c6sched.event = c6event.slug ∧ c6sched.version = c6root.version ∧
    c6sched.speakers_notified = false :=
  have r := release_freezes_and_sets_date_range c6root c6event c6store []
    c6sched c6storeFinal (by decide) (by rfl)
  ⟨r.1, r.2.1, r.2.2.1⟩
